import Mathlib

/-!
Verification of the borrow-state machine of `atomic_refcell` (src/src/lib.rs).

The library guards one value with a single atomic `usize` word:
* `0` means unborrowed,
* `1 .. HIGH_BIT-1` means that many live shared borrows,
* values with the top bit set mean one live exclusive borrow, possibly plus
  stray increments left behind by shared acquires that failed while the
  exclusive borrow was live.

We model the word as a `Nat` reduced modulo `2^64` (a 64-bit `usize`), and
each atomic operation of the source as a pure function from the word to a
result together with the new word.  Panics ("traps") and the deliberate
process abort are explicit result constructors.
-/

/-- Width of the modelled `usize` word: we fix the common 64-bit platform. -/
def WORD : Nat := 2 ^ 64

/-- `const HIGH_BIT: usize = !(::core::usize::MAX >> 1);` — the top bit. -/
def HIGH_BIT : Nat := 2 ^ 63

/-- `const MAX_FAILED_BORROWS: usize = HIGH_BIT + (HIGH_BIT >> 1);` -/
def MAX_FAILED_BORROWS : Nat := HIGH_BIT + (HIGH_BIT >>> 1)

/-- Result of `AtomicBorrowRef::try_new` (a shared acquire), with the panic
inside `check_overflow` and the process abort made explicit. -/
inductive SharedRes where
  /-- The acquire succeeded: a shared guard now exists. -/
  | ok : SharedRes
  /-- `Err(&'static str)` returned to the caller. -/
  | err (msg : String) : SharedRes
  /-- The `panic!("too many immutable borrows")` in `check_overflow`. -/
  | overflowTrap (msg : String) : SharedRes
  /-- The deliberate process abort in `check_overflow`. -/
  | abortProc : SharedRes
deriving DecidableEq

/-- `true` iff the result is the count-overflow panic. -/
def SharedRes.isOverflowTrap : SharedRes → Bool
  | .overflowTrap _ => true
  | _ => false

/-- `true` iff the result is `Ok`. -/
def SharedRes.isOk : SharedRes → Bool
  | .ok => true
  | _ => false

/-- Result of `AtomicBorrowRefMut::try_new` (an exclusive acquire). -/
inductive MutRes where
  /-- The compare-and-swap succeeded: an exclusive guard now exists. -/
  | ok : MutRes
  /-- `Err(&'static str)` returned to the caller. -/
  | err (msg : String) : MutRes
deriving DecidableEq

/-- `true` iff the result is `Ok`. -/
def MutRes.isOk : MutRes → Bool
  | .ok => true
  | _ => false

namespace AtomicBorrowRef

/-- Outcome of `AtomicBorrowRef::check_overflow`. -/
inductive OverflowCheck where
  /-- `check_overflow` returned normally (the caller then returns `Err`). -/
  | proceed : OverflowCheck
  /-- `panic!("too many immutable borrows")` after the corrective decrement. -/
  | trapped (msg : String) : OverflowCheck
  /-- The process abort when `new >= MAX_FAILED_BORROWS`. -/
  | abortedProc : OverflowCheck
deriving DecidableEq

/-- `AtomicBorrowRef::check_overflow(borrow, new)`: called with the word equal
to `new`; on `new == HIGH_BIT` it does `fetch_sub(1)` and panics, on
`new >= MAX_FAILED_BORROWS` it aborts the process, otherwise it returns. -/
def check_overflow (new : Nat) : OverflowCheck × Nat :=
  if new = HIGH_BIT then
    (.trapped "too many immutable borrows", (new + (WORD - 1)) % WORD)
  else if new ≥ MAX_FAILED_BORROWS then
    (.abortedProc, new)
  else
    (.proceed, new)

/-- `AtomicBorrowRef::try_new(borrow)`:
`let new = borrow.fetch_add(1, Acquire) + 1;` then if `new & HIGH_BIT != 0`
run `check_overflow` and return `Err("already mutably borrowed")`, else `Ok`. -/
def try_new (s : Nat) : SharedRes × Nat :=
  let new := (s + 1) % WORD
  if new &&& HIGH_BIT ≠ 0 then
    match check_overflow new with
    | (.proceed, s') => (.err "already mutably borrowed", s')
    | (.trapped m, s') => (.overflowTrap m, s')
    | (.abortedProc, s') => (.abortProc, s')
  else
    (.ok, new)

/-- `Drop for AtomicBorrowRef`: `self.borrow.fetch_sub(1, Release)`
(wrapping subtraction on the word). -/
def drop (s : Nat) : Nat := (s + (WORD - 1)) % WORD

end AtomicBorrowRef

namespace AtomicBorrowRefMut

/-- `AtomicBorrowRefMut::try_new(borrow)`: `compare_exchange(0, HIGH_BIT, ..)`;
on observed `old == 0` the swap succeeds, otherwise the word is untouched and
the error names the conflicting mode. -/
def try_new (s : Nat) : MutRes × Nat :=
  if s = 0 then
    (.ok, HIGH_BIT)
  else if s &&& HIGH_BIT = 0 then
    (.err "already immutably borrowed", s)
  else
    (.err "already mutably borrowed", s)

/-- `Drop for AtomicBorrowRefMut`: `self.borrow.store(0, Release)`. -/
def drop (_s : Nat) : Nat := 0

end AtomicBorrowRefMut

/-- The opaque error type returned by `AtomicRefCell::try_borrow`
(`pub struct BorrowError { _private: () }`). -/
inductive BorrowError where
  /-- The only value: the struct carries no information. -/
  | mk : BorrowError
deriving DecidableEq

/-- The opaque error type returned by `AtomicRefCell::try_borrow_mut`
(`pub struct BorrowMutError { _private: () }`). -/
inductive BorrowMutError where
  /-- The only value: the struct carries no information. -/
  | mk : BorrowMutError
deriving DecidableEq

namespace AtomicRefCell

/-- Outcome of `AtomicRefCell::try_borrow` at the public boundary. -/
inductive TryBorrowRes where
  /-- `Ok(AtomicRef { .. })`. -/
  | ok : TryBorrowRes
  /-- `Err(BorrowError { _private: () })`. -/
  | errVal (e : BorrowError) : TryBorrowRes
  /-- The count-overflow panic escaping through `try_borrow`. -/
  | trap (msg : String) : TryBorrowRes
  /-- The process abort escaping through `try_borrow`. -/
  | abortRes : TryBorrowRes
deriving DecidableEq

/-- `true` iff `try_borrow` returned `Err`. -/
def TryBorrowRes.isErrVal : TryBorrowRes → Bool
  | .errVal _ => true
  | _ => false

/-- Outcome of `AtomicRefCell::try_borrow_mut` at the public boundary. -/
inductive TryBorrowMutRes where
  /-- `Ok(AtomicRefMut { .. })`. -/
  | ok : TryBorrowMutRes
  /-- `Err(BorrowMutError { _private: () })`. -/
  | errVal (e : BorrowMutError) : TryBorrowMutRes
deriving DecidableEq

/-- `true` iff `try_borrow_mut` returned `Err`. -/
def TryBorrowMutRes.isErrVal : TryBorrowMutRes → Bool
  | .errVal _ => true
  | _ => false

/-- Outcome of the panicking entry points `borrow` / `borrow_mut`. -/
inductive BorrowOut where
  /-- A guard was produced. -/
  | ok : BorrowOut
  /-- `panic!("{}", s)` with the message from the inner acquire (or the
  count-overflow panic propagating). -/
  | panicked (msg : String) : BorrowOut
  /-- The process abort propagating. -/
  | abortRes : BorrowOut
deriving DecidableEq

/-- `AtomicRefCell::try_borrow`: wraps `AtomicBorrowRef::try_new`, replacing
any returned error by the opaque `BorrowError`. -/
def try_borrow (s : Nat) : TryBorrowRes × Nat :=
  match AtomicBorrowRef.try_new s with
  | (.ok, s') => (.ok, s')
  | (.err _, s') => (.errVal .mk, s')
  | (.overflowTrap m, s') => (.trap m, s')
  | (.abortProc, s') => (.abortRes, s')

/-- `AtomicRefCell::try_borrow_mut`: wraps `AtomicBorrowRefMut::try_new`,
replacing any returned error by the opaque `BorrowMutError`. -/
def try_borrow_mut (s : Nat) : TryBorrowMutRes × Nat :=
  match AtomicBorrowRefMut.try_new s with
  | (.ok, s') => (.ok, s')
  | (.err _, s') => (.errVal .mk, s')

/-- `AtomicRefCell::borrow`: like `try_borrow` but `panic!("{}", s)` on `Err`,
surfacing the inner message. -/
def borrow (s : Nat) : BorrowOut × Nat :=
  match AtomicBorrowRef.try_new s with
  | (.ok, s') => (.ok, s')
  | (.err m, s') => (.panicked m, s')
  | (.overflowTrap m, s') => (.panicked m, s')
  | (.abortProc, s') => (.abortRes, s')

/-- `AtomicRefCell::borrow_mut`: like `try_borrow_mut` but panics on `Err`,
surfacing the inner message. -/
def borrow_mut (s : Nat) : BorrowOut × Nat :=
  match AtomicBorrowRefMut.try_new s with
  | (.ok, s') => (.ok, s')
  | (.err m, s') => (.panicked m, s')

end AtomicRefCell

/-!
Arithmetic helpers about the top bit, and evaluation lemmas for the core
acquire operations on the regions of the word the claims quantify over.
-/

theorem WORD_val : WORD = 18446744073709551616 := by decide

theorem HIGH_BIT_val : HIGH_BIT = 9223372036854775808 := by decide

theorem MAX_FAILED_BORROWS_val : MAX_FAILED_BORROWS = 13835058055282163712 := by
  decide

theorem land_high_bit (n : Nat) (h : n < WORD) :
    n &&& HIGH_BIT = if HIGH_BIT ≤ n then HIGH_BIT else 0 := by
  rw [WORD_val] at h
  rw [HIGH_BIT_val]
  have h2 : n &&& 2 ^ 63 = (n.testBit 63).toNat * 2 ^ 63 := Nat.and_two_pow n 63
  have h3 : n.testBit 63 = decide (n / 2 ^ 63 % 2 = 1) := Nat.testBit_to_div_mod
  have hp : (2 : Nat) ^ 63 = 9223372036854775808 := by norm_num
  rw [hp] at h2 h3
  by_cases hc : 9223372036854775808 ≤ n
  · have hq : n / 9223372036854775808 = 1 := by omega
    rw [h2, h3, hq]
    simp [hc]
  · have hq : n / 9223372036854775808 = 0 := by omega
    rw [h2, h3, hq]
    simp [hc]

theorem land_high_bit_zero (n : Nat) (h : n < HIGH_BIT) : n &&& HIGH_BIT = 0 := by
  rw [land_high_bit n (by rw [WORD_val]; rw [HIGH_BIT_val] at h; omega)]
  simp [Nat.not_le.mpr h]

theorem land_high_bit_pos (n : Nat) (h1 : HIGH_BIT ≤ n) (h2 : n < WORD) :
    n &&& HIGH_BIT ≠ 0 := by
  rw [land_high_bit n h2, if_pos h1, HIGH_BIT_val]
  omega

/-- A successful shared acquire: from a word below `HIGH_BIT - 1` the
increment stays clear of the top bit and `try_new` returns `Ok`. -/
theorem try_new_ok (s : Nat) (h : s + 1 < HIGH_BIT) :
    AtomicBorrowRef.try_new s = (.ok, s + 1) := by
  have hw : (s + 1) % WORD = s + 1 :=
    Nat.mod_eq_of_lt (by rw [HIGH_BIT_val] at h; rw [WORD_val]; omega)
  simp [AtomicBorrowRef.try_new, hw, land_high_bit_zero (s + 1) h]

/-- A shared acquire that fails against a live exclusive borrow and leaves the
stray increment: the word has the top bit set and the increment stays below
the abort threshold. -/
theorem try_new_stray (s : Nat) (h1 : HIGH_BIT ≤ s) (h2 : s + 1 < MAX_FAILED_BORROWS) :
    AtomicBorrowRef.try_new s = (.err "already mutably borrowed", s + 1) := by
  rw [HIGH_BIT_val] at h1
  rw [MAX_FAILED_BORROWS_val] at h2
  have hw : (s + 1) % WORD = s + 1 := Nat.mod_eq_of_lt (by rw [WORD_val]; omega)
  have hland : (s + 1) &&& HIGH_BIT ≠ 0 :=
    land_high_bit_pos (s + 1) (by rw [HIGH_BIT_val]; omega) (by rw [WORD_val]; omega)
  have hne : s + 1 ≠ HIGH_BIT := by rw [HIGH_BIT_val]; omega
  have hnmax : ¬MAX_FAILED_BORROWS ≤ s + 1 := by rw [MAX_FAILED_BORROWS_val]; omega
  simp [AtomicBorrowRef.try_new, AtomicBorrowRef.check_overflow, hw, hland, hne,
    hnmax]

/-- The shared acquire whose increment reaches the abort threshold aborts the
process, leaving the increment in place. -/
theorem try_new_abort (s : Nat) (h2 : s + 1 = MAX_FAILED_BORROWS) :
    AtomicBorrowRef.try_new s = (.abortProc, s + 1) := by
  have hs : s = 13835058055282163711 := by rw [MAX_FAILED_BORROWS_val] at h2; omega
  subst hs
  rw [h2]
  decide

/-- The shared acquire whose increment lands exactly on `HIGH_BIT` decrements
back and panics with the count-overflow message. -/
theorem try_new_trap :
    AtomicBorrowRef.try_new (HIGH_BIT - 1)
      = (.overflowTrap "too many immutable borrows", HIGH_BIT - 1) := by
  decide

/-- Claim C4: a failed exclusive acquire leaves the word exactly unchanged —
for every nonzero word, `AtomicBorrowRefMut::try_new` (hence `try_borrow_mut`,
and `borrow_mut` up to its panic) returns an error and performs no increment
or any other side effect. -/
theorem failed_exclusive_acquire_no_side_effect (s : Nat) (h : s ≠ 0) :
    (AtomicBorrowRefMut.try_new s).2 = s
    ∧ (AtomicBorrowRefMut.try_new s).1.isOk = false
    ∧ (AtomicRefCell.try_borrow_mut s).2 = s
    ∧ (AtomicRefCell.try_borrow_mut s).1.isErrVal = true
    ∧ (AtomicRefCell.borrow_mut s).2 = s := by
  unfold AtomicRefCell.try_borrow_mut AtomicRefCell.borrow_mut
    AtomicBorrowRefMut.try_new
  by_cases hb : s &&& HIGH_BIT = 0 <;>
    simp [h, hb, MutRes.isOk, AtomicRefCell.TryBorrowMutRes.isErrVal]

/-- Closed instance of `failed_exclusive_acquire_no_side_effect` at word `5`
(five live shared borrows). -/
theorem failed_exclusive_acquire_no_side_effect_witness :
    (AtomicBorrowRefMut.try_new 5).2 = 5
    ∧ (AtomicBorrowRefMut.try_new 5).1.isOk = false
    ∧ (AtomicRefCell.try_borrow_mut 5).2 = 5
    ∧ (AtomicRefCell.try_borrow_mut 5).1.isErrVal = true
    ∧ (AtomicRefCell.borrow_mut 5).2 = 5 :=
  failed_exclusive_acquire_no_side_effect 5 (by decide)

/-- Claim C5: for every word with the top bit set whose successor is neither
exactly `HIGH_BIT` nor at or above the abort threshold, a shared acquire
returns the already-exclusively-borrowed error and leaves the word equal to
the pre-call value plus one — the stray increment stays in place. -/
theorem failed_shared_acquire_leaves_stray (s : Nat) (hs : s < WORD)
    (h1 : s &&& HIGH_BIT ≠ 0) (h2 : s + 1 ≠ HIGH_BIT) (h3 : s + 1 < MAX_FAILED_BORROWS) :
    AtomicBorrowRef.try_new s = (.err "already mutably borrowed", s + 1)
    ∧ AtomicRefCell.try_borrow s = (.errVal .mk, s + 1) := by
  have hge : HIGH_BIT ≤ s := by
    by_contra hlt
    exact h1 (land_high_bit_zero s (by omega))
  refine ⟨try_new_stray s hge h3, ?_⟩
  unfold AtomicRefCell.try_borrow
  rw [try_new_stray s hge h3]

/-- Closed instance of `failed_shared_acquire_leaves_stray` at word
`HIGH_BIT` (a freshly acquired exclusive borrow, no strays yet). -/
theorem failed_shared_acquire_leaves_stray_witness :
    AtomicBorrowRef.try_new HIGH_BIT
      = (.err "already mutably borrowed", HIGH_BIT + 1)
    ∧ AtomicRefCell.try_borrow HIGH_BIT
      = (.errVal .mk, HIGH_BIT + 1) :=
  failed_shared_acquire_leaves_stray HIGH_BIT (by decide) (by decide)
    (by decide) (by decide)

/-- A straight-line run of `n` successive `try_borrow` attempts (each one an
`AtomicBorrowRef::try_new` on the shared word), collecting the results. -/
def runBorrows : Nat → Nat → List SharedRes × Nat
  | 0, s => ([], s)
  | n + 1, s =>
    let r := AtomicBorrowRef.try_new s
    let rest := runBorrows n r.2
    (r.1 :: rest.1, rest.2)

theorem HALF_HIGH_BIT_val : HIGH_BIT >>> 1 = 4611686018427387904 := by decide

/-- With an exclusive borrow live and `j` strays already recorded, `k` more
failed shared acquires each return the error and push the word up by one. -/
theorem runBorrows_strays (k j : Nat) (h : j + k < HIGH_BIT >>> 1) :
    runBorrows k (HIGH_BIT + j)
      = (List.replicate k (SharedRes.err "already mutably borrowed"),
          HIGH_BIT + (j + k)) := by
  induction k generalizing j with
  | zero => simp [runBorrows]
  | succ n ih =>
    rw [HALF_HIGH_BIT_val] at h
    have hstep : AtomicBorrowRef.try_new (HIGH_BIT + j)
        = (.err "already mutably borrowed", HIGH_BIT + j + 1) := by
      refine try_new_stray _ (Nat.le_add_right _ _) ?_
      rw [MAX_FAILED_BORROWS_val, HIGH_BIT_val]
      omega
    have hrec := ih (j + 1) (by rw [HALF_HIGH_BIT_val]; omega)
    rw [show j + 1 + n = j + (n + 1) from by omega] at hrec
    simp only [runBorrows, hstep]
    rw [show HIGH_BIT + j + 1 = HIGH_BIT + (j + 1) from rfl, hrec]
    simp [List.replicate_succ]

/-- Claim C3 (amended): for every word whose increment stays below the abort
threshold, `try_borrow` returns an error exactly when the top bit is set (an
exclusive guard is live), `try_borrow_mut` returns an error exactly when the
word is nonzero, and the inner acquire messages distinguish the cases:
a shared acquire against a live exclusive borrow and an exclusive acquire
against a live exclusive borrow both fail as "already mutably borrowed",
while an exclusive acquire against live shared borrows fails as "already
immutably borrowed".  (At the one excluded word, `THRESHOLD - 1`, the shared
acquire aborts the process instead of returning an error.) -/
theorem try_borrow_error_iff (s : Nat) (hs : s < WORD)
    (hth : s + 1 < MAX_FAILED_BORROWS) :
    ((AtomicRefCell.try_borrow s).1.isErrVal = true ↔ s &&& HIGH_BIT ≠ 0)
    ∧ ((AtomicRefCell.try_borrow_mut s).1.isErrVal = true ↔ s ≠ 0)
    ∧ (s &&& HIGH_BIT ≠ 0 →
        (AtomicBorrowRef.try_new s).1 = .err "already mutably borrowed"
        ∧ (AtomicBorrowRefMut.try_new s).1 = .err "already mutably borrowed")
    ∧ (s ≠ 0 → s &&& HIGH_BIT = 0 →
        (AtomicBorrowRefMut.try_new s).1 = .err "already immutably borrowed") := by
  have hland := land_high_bit s hs
  rw [HIGH_BIT_val] at hland
  by_cases hc : 9223372036854775808 ≤ s
  · rw [if_pos hc] at hland
    have hge : HIGH_BIT ≤ s := by rw [HIGH_BIT_val]; omega
    have hstray := try_new_stray s hge hth
    have hpos : s ≠ 0 := by omega
    have hbit : s &&& HIGH_BIT ≠ 0 := by rw [HIGH_BIT_val, hland]; omega
    refine ⟨?_, ?_, ?_, ?_⟩
    · simp [AtomicRefCell.try_borrow, hstray, AtomicRefCell.TryBorrowRes.isErrVal,
        hbit]
    · simp [AtomicRefCell.try_borrow_mut, AtomicBorrowRefMut.try_new, hpos, hbit,
        AtomicRefCell.TryBorrowMutRes.isErrVal]
    · intro _
      refine ⟨by rw [hstray], ?_⟩
      simp [AtomicBorrowRefMut.try_new, hpos, hbit]
    · intro _ hz
      exact absurd hz hbit
  · rw [if_neg hc] at hland
    have hlt : s < HIGH_BIT := by rw [HIGH_BIT_val]; omega
    have hbit : s &&& HIGH_BIT = 0 := hland
    refine ⟨?_, ?_, fun hx => absurd hbit hx, fun hpos _ => ?_⟩
    · by_cases he : s + 1 < HIGH_BIT
      · simp [AtomicRefCell.try_borrow, try_new_ok s he,
          AtomicRefCell.TryBorrowRes.isErrVal, hbit]
      · -- `s + 1 = HIGH_BIT`: the count-overflow trap, not a returned error.
        have hs1 : s + 1 = HIGH_BIT := by
          rw [HIGH_BIT_val] at he ⊢; omega
        have hsv : s = HIGH_BIT - 1 := by omega
        subst hsv
        simp [AtomicRefCell.try_borrow, try_new_trap,
          AtomicRefCell.TryBorrowRes.isErrVal, hbit]
    · by_cases hz : s = 0
      · simp [AtomicRefCell.try_borrow_mut, AtomicBorrowRefMut.try_new, hz,
          AtomicRefCell.TryBorrowMutRes.isErrVal]
      · simp [AtomicRefCell.try_borrow_mut, AtomicBorrowRefMut.try_new, hz, hbit,
          AtomicRefCell.TryBorrowMutRes.isErrVal]
    · simp [AtomicBorrowRefMut.try_new, hpos, hbit]

/-- Closed instance of `try_borrow_error_iff` at word `HIGH_BIT` (one live
exclusive guard, no strays). -/
theorem try_borrow_error_iff_witness :
    ((AtomicRefCell.try_borrow HIGH_BIT).1.isErrVal = true
        ↔ HIGH_BIT &&& HIGH_BIT ≠ 0)
    ∧ ((AtomicRefCell.try_borrow_mut HIGH_BIT).1.isErrVal = true ↔ HIGH_BIT ≠ 0)
    ∧ (HIGH_BIT &&& HIGH_BIT ≠ 0 →
        (AtomicBorrowRef.try_new HIGH_BIT).1 = .err "already mutably borrowed"
        ∧ (AtomicBorrowRefMut.try_new HIGH_BIT).1 = .err "already mutably borrowed")
    ∧ (HIGH_BIT ≠ 0 → HIGH_BIT &&& HIGH_BIT = 0 →
        (AtomicBorrowRefMut.try_new HIGH_BIT).1 = .err "already immutably borrowed") :=
  try_borrow_error_iff HIGH_BIT (by decide) (by decide)

/-- Claim C3 counterexample: at word `THRESHOLD - 1` (a live exclusive guard
with the maximum recorded number of failed shared acquires) the top bit is
set, yet `try_borrow` does not return an error — the acquire aborts the whole
process — so "returns an error exactly when the high bit is set" fails there. -/
theorem try_borrow_error_iff_cex :
    (13835058055282163711 : Nat) &&& HIGH_BIT ≠ 0
    ∧ (13835058055282163711 : Nat) + 1 = MAX_FAILED_BORROWS
    ∧ (AtomicRefCell.try_borrow 13835058055282163711).1.isErrVal = false
    ∧ (AtomicRefCell.try_borrow 13835058055282163711).1
        = AtomicRefCell.TryBorrowRes.abortRes := by
  decide

/-- Claim C8 (amended): the checked entry points return an error value, but
the kind of the violation is carried only by the inner acquire's message
(which the panicking entry points surface): the `BorrowMutError` value that
`try_borrow_mut` returns is the same opaque value whether shared guards or an
exclusive guard were live.  The inner messages for the two cases are distinct
strings. -/
theorem borrow_mut_error_kinds (sSh sEx : Nat) (h1 : sSh ≠ 0)
    (h2 : sSh &&& HIGH_BIT = 0) (h3 : sEx &&& HIGH_BIT ≠ 0) :
    (AtomicBorrowRefMut.try_new sSh).1 = .err "already immutably borrowed"
    ∧ (AtomicBorrowRefMut.try_new sEx).1 = .err "already mutably borrowed"
    ∧ (AtomicRefCell.borrow_mut sSh).1
        = AtomicRefCell.BorrowOut.panicked "already immutably borrowed"
    ∧ (AtomicRefCell.borrow_mut sEx).1
        = AtomicRefCell.BorrowOut.panicked "already mutably borrowed"
    ∧ ("already immutably borrowed" : String) ≠ "already mutably borrowed"
    ∧ (AtomicRefCell.try_borrow_mut sSh).1 = .errVal BorrowMutError.mk
    ∧ (AtomicRefCell.try_borrow_mut sEx).1 = .errVal BorrowMutError.mk := by
  have hEx : sEx ≠ 0 := by
    intro hz
    subst hz
    exact h3 (by decide)
  refine ⟨?_, ?_, ?_, ?_, by decide, ?_, ?_⟩ <;>
    simp [AtomicBorrowRefMut.try_new, AtomicRefCell.borrow_mut,
      AtomicRefCell.try_borrow_mut, h1, h2, h3, hEx]

/-- Closed instance of `borrow_mut_error_kinds` with one live shared guard
(word `1`) versus a live exclusive guard (word `HIGH_BIT`). -/
theorem borrow_mut_error_kinds_witness :
    (AtomicBorrowRefMut.try_new 1).1 = .err "already immutably borrowed"
    ∧ (AtomicBorrowRefMut.try_new HIGH_BIT).1 = .err "already mutably borrowed"
    ∧ (AtomicRefCell.borrow_mut 1).1
        = AtomicRefCell.BorrowOut.panicked "already immutably borrowed"
    ∧ (AtomicRefCell.borrow_mut HIGH_BIT).1
        = AtomicRefCell.BorrowOut.panicked "already mutably borrowed"
    ∧ ("already immutably borrowed" : String) ≠ "already mutably borrowed"
    ∧ (AtomicRefCell.try_borrow_mut 1).1 = .errVal BorrowMutError.mk
    ∧ (AtomicRefCell.try_borrow_mut HIGH_BIT).1 = .errVal BorrowMutError.mk :=
  borrow_mut_error_kinds 1 HIGH_BIT (by decide) (by decide) (by decide)

/-- Claim C8 counterexample: the error value `try_borrow_mut` returns when
shared guards are live (word `1`) is equal, as a value, to the one returned
when an exclusive guard is live (word `HIGH_BIT`): `BorrowMutError` carries no
kind, so the two failures are not distinguishable from the returned value. -/
theorem borrow_mut_error_opaque_cex :
    (1 : Nat) &&& HIGH_BIT = 0
    ∧ HIGH_BIT &&& HIGH_BIT ≠ 0
    ∧ (AtomicRefCell.try_borrow_mut 1).1 = .errVal BorrowMutError.mk
    ∧ (AtomicRefCell.try_borrow_mut HIGH_BIT).1 = .errVal BorrowMutError.mk
    ∧ (AtomicRefCell.try_borrow_mut 1).1 = (AtomicRefCell.try_borrow_mut HIGH_BIT).1 := by
  decide

/-- Claim C2: dropping an exclusive guard (`AtomicRefMut`, whose
`AtomicBorrowRefMut` performs `store(0, Release)` on drop) sets the
borrow-state word to exactly `0`, unconditionally, for every prior value of
the word — in particular regardless of stray increments left by shared
acquires that failed while the exclusive borrow was live. -/
theorem exclusive_drop_resets_to_zero (s : Nat) : AtomicBorrowRefMut.drop s = 0 :=
  rfl

/-- Claim C6: when a shared acquire's increment makes the word exactly
`HIGH_BIT` (pre-call word `HIGH_BIT - 1`), the operation decrements the word
back to `HIGH_BIT - 1` and traps with the count-overflow panic — it neither
succeeds nor returns the recoverable error. -/
theorem shared_overflow_trap_restores :
    AtomicBorrowRef.try_new (HIGH_BIT - 1)
      = (SharedRes.overflowTrap "too many immutable borrows", HIGH_BIT - 1)
    ∧ AtomicRefCell.try_borrow (HIGH_BIT - 1)
      = (AtomicRefCell.TryBorrowRes.trap "too many immutable borrows", HIGH_BIT - 1)
    ∧ (AtomicBorrowRef.try_new (HIGH_BIT - 1)).1.isOk = false
    ∧ (AtomicRefCell.try_borrow (HIGH_BIT - 1)).1.isErrVal = false := by
  decide

/-- Claim C7 (amended): starting with a live exclusive guard (word
`HIGH_BIT`), every failed `try_borrow` leaves its stray increment in place and
returns the already-mutably-borrowed error — after `k` failed calls the word
is `HIGH_BIT + k` — and no such call traps with the count-overflow panic; the
`(HIGH_BIT >> 1)`-th attempt, whose increment reaches
`THRESHOLD = MAX_FAILED_BORROWS`, aborts the entire process. -/
theorem strays_under_exclusive_then_abort :
    (∀ k, k < HIGH_BIT >>> 1 →
      runBorrows k HIGH_BIT
        = (List.replicate k (SharedRes.err "already mutably borrowed"),
            HIGH_BIT + k))
    ∧ AtomicBorrowRef.try_new (MAX_FAILED_BORROWS - 1)
        = (.abortProc, MAX_FAILED_BORROWS)
    ∧ (∀ k, k < HIGH_BIT >>> 1 →
      (AtomicBorrowRef.try_new (HIGH_BIT + k)).1.isOverflowTrap = false) := by
  refine ⟨fun k hk => by simpa using runBorrows_strays k 0 (by simpa using hk),
    ?_, fun k hk => ?_⟩
  · have := try_new_abort (MAX_FAILED_BORROWS - 1) (by rw [MAX_FAILED_BORROWS_val])
    rw [this]
    decide
  · rw [HALF_HIGH_BIT_val] at hk
    by_cases hlast : HIGH_BIT + k + 1 = MAX_FAILED_BORROWS
    · rw [try_new_abort _ hlast]
      rfl
    · have hlt : HIGH_BIT + k + 1 < MAX_FAILED_BORROWS := by
        rw [MAX_FAILED_BORROWS_val, HIGH_BIT_val] at hlast ⊢
        omega
      rw [try_new_stray _ (Nat.le_add_right _ _) hlt]
      rfl

/-- Closed instance of `strays_under_exclusive_then_abort`: three failed
shared acquires under a live exclusive guard. -/
theorem strays_under_exclusive_then_abort_witness :
    runBorrows 3 HIGH_BIT
      = (List.replicate 3 (SharedRes.err "already mutably borrowed"),
          HIGH_BIT + 3)
    ∧ (AtomicBorrowRef.try_new (HIGH_BIT + 3)).1.isOverflowTrap = false :=
  ⟨strays_under_exclusive_then_abort.1 3 (by decide),
    strays_under_exclusive_then_abort.2.2 3 (by decide)⟩

/-- Claim C7 counterexample: if `HIGH_BIT - 1` failed `try_borrow` calls under
a live exclusive guard each left their increment, the word would be
`HIGH_BIT + (HIGH_BIT - 1)` (i.e. `2^64 - 1`); the next shared acquire there
does not trap with the count-overflow panic and does not restore `HIGH_BIT` —
its wrapping increment makes it succeed and set the word to `0` (which is why
the code aborts the process long before, at `THRESHOLD`). -/
theorem scenario_trap_under_exclusive_cex :
    AtomicBorrowRef.try_new (HIGH_BIT + (HIGH_BIT - 1)) = (SharedRes.ok, 0)
    ∧ (AtomicBorrowRef.try_new (HIGH_BIT + (HIGH_BIT - 1))).1.isOverflowTrap
        = false
    ∧ (AtomicBorrowRef.try_new (HIGH_BIT + (HIGH_BIT - 1))).2 ≠ HIGH_BIT := by
  decide

/-- The value part of an `AtomicRef<'b, T>` shared guard: the borrow-state
bookkeeping is carried alongside as the explicit word. -/
structure AtomicRef (α : Type) where
  /-- The borrowed value the guard points at. -/
  val : α
deriving DecidableEq

/-- The value part of an `AtomicRefMut<'b, T>` exclusive guard. -/
structure AtomicRefMut (α : Type) where
  /-- The borrowed value the guard points at. -/
  val : α
deriving DecidableEq

/-- `AtomicRef::filter_map(orig, f)`: if `f` matches, the new guard inherits
`orig`'s borrow obligation (no word change); if `f` reports no match, `orig`
is dropped as part of returning `None`, releasing one shared count. -/
def AtomicRef.filter_map {α β : Type} (f : α → Option β) (orig : AtomicRef α)
    (s : Nat) : Option (AtomicRef β) × Nat :=
  match f orig.val with
  | some u => (some ⟨u⟩, s)
  | none => (none, AtomicBorrowRef.drop s)

/-- `AtomicRefMut::filter_map(orig, f)`: as for `AtomicRef`, but dropping the
exclusive guard stores `0`. -/
def AtomicRefMut.filter_map {α β : Type} (f : α → Option β)
    (orig : AtomicRefMut α) (s : Nat) : Option (AtomicRefMut β) × Nat :=
  match f orig.val with
  | some u => (some ⟨u⟩, s)
  | none => (none, AtomicBorrowRefMut.drop s)

/-- Claim C9: for a guard (shared or exclusive) freshly acquired from word
`s0`, `filter_map` with a non-matching `f` returns `None` and releases the
guard's acquire obligation exactly once: the word afterwards equals its value
from before the guard was acquired. -/
theorem filter_map_no_match_releases {α β : Type} (v : α) (f : α → Option β)
    (s0 : Nat) (hs : s0 < WORD) (hf : f v = none) :
    ((AtomicBorrowRef.try_new s0).1 = .ok →
      AtomicRef.filter_map f ⟨v⟩ (AtomicBorrowRef.try_new s0).2 = (none, s0))
    ∧ ((AtomicBorrowRefMut.try_new s0).1 = .ok →
      AtomicRefMut.filter_map f ⟨v⟩ (AtomicBorrowRefMut.try_new s0).2
        = (none, s0)) := by
  rw [WORD_val] at hs
  constructor
  · intro hok
    have heq : AtomicBorrowRef.try_new s0 = (.ok, (s0 + 1) % WORD) := by
      by_cases hb : (s0 + 1) % WORD &&& HIGH_BIT = 0
      · simp [AtomicBorrowRef.try_new, hb]
      · exfalso
        rcases hco : AtomicBorrowRef.check_overflow ((s0 + 1) % WORD) with ⟨c, s'⟩
        cases c <;> simp [AtomicBorrowRef.try_new, hb, hco] at hok
    rw [heq]
    simp [AtomicRef.filter_map, hf, AtomicBorrowRef.drop, WORD_val]
    omega
  · intro hok
    have hz : s0 = 0 := by
      by_contra hnz
      unfold AtomicBorrowRefMut.try_new at hok
      by_cases hb : s0 &&& HIGH_BIT = 0 <;> simp [hnz, hb] at hok
    subst hz
    have : AtomicBorrowRefMut.try_new 0 = (.ok, HIGH_BIT) := by decide
    rw [this]
    unfold AtomicRefMut.filter_map
    rw [hf]
    rfl

/-- Closed instance of `filter_map_no_match_releases`: a shared guard and an
exclusive guard over the value `7`, both acquired from the unborrowed word,
filtered with a never-matching function. -/
theorem filter_map_no_match_releases_witness :
    ((AtomicBorrowRef.try_new 0).1 = .ok →
      AtomicRef.filter_map (fun _ => (none : Option Nat)) ⟨(7 : Nat)⟩
        (AtomicBorrowRef.try_new 0).2 = (none, 0))
    ∧ ((AtomicBorrowRefMut.try_new 0).1 = .ok →
      AtomicRefMut.filter_map (fun _ => (none : Option Nat)) ⟨(7 : Nat)⟩
        (AtomicBorrowRefMut.try_new 0).2 = (none, 0)) :=
  filter_map_no_match_releases 7 (fun _ => none) 0 (by decide) rfl

/-- Outcome of `Clone for AtomicRefCell`. -/
inductive AtomicRefCell.CloneRes where
  /-- A fresh cell was produced; its own borrow word. -/
  | cloned (word : Nat) : AtomicRefCell.CloneRes
  /-- The temporary `self.borrow()` panicked with this message. -/
  | panicked (msg : String) : AtomicRefCell.CloneRes
  /-- The process abort propagating. -/
  | abortRes : AtomicRefCell.CloneRes
deriving DecidableEq

/-- `Clone for AtomicRefCell`: `AtomicRefCell::new(self.borrow().clone())` —
a temporary shared borrow of the source, a fresh cell whose word starts at
`0`, then the temporary guard drops, releasing one shared count. -/
def AtomicRefCell.clone (s : Nat) : AtomicRefCell.CloneRes × Nat :=
  match AtomicRefCell.borrow s with
  | (.ok, s') => (.cloned 0, AtomicBorrowRef.drop s')
  | (.panicked m, s') => (.panicked m, s')
  | (.abortRes, s') => (.abortRes, s')

/-- Claim C10 (amended): cloning the cell acquires a temporary shared borrow
of the source, so it panics whenever the source is exclusively borrowed (below
the abort threshold), and whenever only shared borrows (or none) are live with
count below `HIGH_BIT - 1` it succeeds, the returned cell's word is `0`
regardless of the source's shared count, and the source's word is restored to
its pre-call value once the temporary borrow is released.  (At shared count
exactly `HIGH_BIT - 1` the temporary acquire overflows the count and panics
instead.) -/
theorem clone_borrows_source (s : Nat) (hs : s < WORD) :
    (s &&& HIGH_BIT ≠ 0 → s + 1 < MAX_FAILED_BORROWS →
      (AtomicRefCell.clone s).1 = .panicked "already mutably borrowed")
    ∧ (s + 1 < HIGH_BIT → AtomicRefCell.clone s = (.cloned 0, s)) := by
  constructor
  · intro hbit hth
    have hge : HIGH_BIT ≤ s := by
      by_contra hlt
      exact hbit (land_high_bit_zero s (by omega))
    unfold AtomicRefCell.clone AtomicRefCell.borrow
    rw [try_new_stray s hge hth]
  · intro hok
    unfold AtomicRefCell.clone AtomicRefCell.borrow
    rw [try_new_ok s hok]
    simp only [Prod.mk.injEq, true_and]
    unfold AtomicBorrowRef.drop
    rw [WORD_val] at hs ⊢
    rw [HIGH_BIT_val] at hok
    omega

/-- Closed instance of `clone_borrows_source` at word `2` (two live shared
borrows): the clone succeeds and the source's word returns to `2`. -/
theorem clone_borrows_source_witness :
    ((2 : Nat) &&& HIGH_BIT ≠ 0 → 2 + 1 < MAX_FAILED_BORROWS →
      (AtomicRefCell.clone 2).1 = .panicked "already mutably borrowed")
    ∧ ((2 : Nat) + 1 < HIGH_BIT → AtomicRefCell.clone 2 = (.cloned 0, 2)) :=
  clone_borrows_source 2 (by decide)

/-- Claim C10 counterexample: at shared count `HIGH_BIT - 1` (no exclusive
borrow live — the top bit of the word is clear), cloning the cell does not
succeed: the temporary shared borrow overflows the count and panics. -/
theorem clone_count_edge_cex :
    (HIGH_BIT - 1) &&& HIGH_BIT = 0
    ∧ (AtomicRefCell.clone (HIGH_BIT - 1)).1
        = .panicked "too many immutable borrows"
    ∧ (AtomicRefCell.clone (HIGH_BIT - 1)).1 ≠ .cloned 0 := by
  decide

/-- A snapshot of one cell shared by any number of threads: the atomic word,
the number of live shared guards, the number of live exclusive guards, and
whether the process has aborted (after which nothing runs any more). -/
structure Config where
  /-- The borrow-state word. -/
  word : Nat
  /-- Number of live `AtomicRef` (shared) guards. -/
  sharedG : Nat
  /-- Number of live `AtomicRefMut` (exclusive) guards. -/
  exclG : Nat
  /-- The process aborted (`check_overflow` crossed `MAX_FAILED_BORROWS`). -/
  aborted : Bool
deriving DecidableEq

/-- Effect of one `try_borrow`/`borrow` attempt by some thread: a guard is
created only on `Ok`; the abort outcome stops the process. -/
def acquireSharedStep (c : Config) : Config :=
  match AtomicBorrowRef.try_new c.word with
  | (.ok, w) => { c with word := w, sharedG := c.sharedG + 1 }
  | (.err _, w) => { c with word := w }
  | (.overflowTrap _, w) => { c with word := w }
  | (.abortProc, w) => { c with word := w, aborted := true }

/-- Effect of one `try_borrow_mut`/`borrow_mut` attempt by some thread. -/
def acquireExclStep (c : Config) : Config :=
  match AtomicBorrowRefMut.try_new c.word with
  | (.ok, w) => { c with word := w, exclG := c.exclG + 1 }
  | (.err _, w) => { c with word := w }

/-- Effect of dropping one live shared guard. -/
def releaseSharedStep (c : Config) : Config :=
  { c with word := AtomicBorrowRef.drop c.word, sharedG := c.sharedG - 1 }

/-- Effect of dropping one live exclusive guard. -/
def releaseExclStep (c : Config) : Config :=
  { c with word := AtomicBorrowRefMut.drop c.word, exclG := c.exclG - 1 }

/-- One atomic step of some thread against the cell.  Acquires may always be
attempted; a release presupposes a live guard of that mode (invariant I2 of
the spec: each release is performed by dropping a live guard).  No step runs
once the process has aborted. -/
inductive Step : Config → Config → Prop where
  /-- Some thread attempts a shared acquire. -/
  | acqShared (c : Config) (hab : c.aborted = false) : Step c (acquireSharedStep c)
  /-- Some thread attempts an exclusive acquire. -/
  | acqExcl (c : Config) (hab : c.aborted = false) : Step c (acquireExclStep c)
  /-- Some thread drops a live shared guard. -/
  | relShared (c : Config) (hab : c.aborted = false) (hg : 0 < c.sharedG) :
      Step c (releaseSharedStep c)
  /-- Some thread drops a live exclusive guard. -/
  | relExcl (c : Config) (hab : c.aborted = false) (hg : 0 < c.exclG) :
      Step c (releaseExclStep c)

/-- The fresh cell: word `0`, no guards. -/
def initConfig : Config := ⟨0, 0, 0, false⟩

/-- Configurations reachable by any interleaving of acquires and releases. -/
inductive Reachable : Config → Prop where
  /-- The fresh cell is reachable. -/
  | init : Reachable initConfig
  /-- One more step. -/
  | step {c c' : Config} : Reachable c → Step c c' → Reachable c'

/-- The inductive invariant tying the word to the live guards: either no
exclusive guard is live and the word counts exactly the live shared guards,
or exactly one exclusive guard is live, no shared guard is, and the word sits
in the reserved upper region (strictly below the abort threshold unless the
process has aborted). -/
def CellInv (c : Config) : Prop :=
  (c.exclG = 0 ∧ c.word = c.sharedG ∧ c.word < HIGH_BIT ∧ c.aborted = false)
  ∨ (c.exclG = 1 ∧ c.sharedG = 0 ∧ HIGH_BIT ≤ c.word
      ∧ c.word ≤ MAX_FAILED_BORROWS
      ∧ (c.aborted = false → c.word < MAX_FAILED_BORROWS))

theorem inv_init : CellInv initConfig := by
  unfold CellInv
  decide

theorem inv_preserved {c c' : Config} (hinv : CellInv c) (hstep : Step c c') :
    CellInv c' := by
  cases hstep with
  | acqShared hab =>
    rcases hinv with ⟨h1, h2, h3, _⟩ | ⟨h1, h2, h3, h4, h5⟩
    · by_cases hlt : c.word + 1 < HIGH_BIT
      · have hstep : acquireSharedStep c
            = ⟨c.word + 1, c.sharedG + 1, c.exclG, c.aborted⟩ := by
          unfold acquireSharedStep
          rw [try_new_ok c.word hlt]
        rw [hstep]
        exact Or.inl ⟨h1, show c.word + 1 = c.sharedG + 1 by omega, hlt, hab⟩
      · have hwn : c.word = 9223372036854775807 := by
          rw [HIGH_BIT_val] at h3 hlt
          omega
        have hw : c.word = HIGH_BIT - 1 := by rw [HIGH_BIT_val]; omega
        have hstep : acquireSharedStep c
            = ⟨HIGH_BIT - 1, c.sharedG, c.exclG, c.aborted⟩ := by
          unfold acquireSharedStep
          rw [hw, try_new_trap]
        rw [hstep]
        refine Or.inl ⟨h1, ?_, ?_, hab⟩
        · show HIGH_BIT - 1 = c.sharedG
          rw [HIGH_BIT_val]
          omega
        · show HIGH_BIT - 1 < HIGH_BIT
          rw [HIGH_BIT_val]
          omega
    · have hmax : c.word < MAX_FAILED_BORROWS := h5 hab
      by_cases hlast : c.word + 1 = MAX_FAILED_BORROWS
      · have hstep : acquireSharedStep c
            = ⟨MAX_FAILED_BORROWS, c.sharedG, c.exclG, true⟩ := by
          unfold acquireSharedStep
          rw [try_new_abort c.word hlast, hlast]
        rw [hstep]
        refine Or.inr ⟨h1, h2, ?_, Nat.le_refl _, fun hf => Bool.noConfusion hf⟩
        show HIGH_BIT ≤ MAX_FAILED_BORROWS
        rw [HIGH_BIT_val, MAX_FAILED_BORROWS_val]
        omega
      · have hstep : acquireSharedStep c
            = ⟨c.word + 1, c.sharedG, c.exclG, c.aborted⟩ := by
          unfold acquireSharedStep
          rw [try_new_stray c.word h3 (by omega)]
        rw [hstep]
        exact Or.inr ⟨h1, h2, Nat.le_trans h3 (Nat.le_succ _),
          show c.word + 1 ≤ MAX_FAILED_BORROWS by omega,
          fun _ => show c.word + 1 < MAX_FAILED_BORROWS by omega⟩
  | acqExcl hab =>
    rcases hinv with ⟨h1, h2, h3, _⟩ | ⟨h1, h2, h3, h4, h5⟩
    · by_cases hz : c.word = 0
      · have hstep : acquireExclStep c
            = ⟨HIGH_BIT, c.sharedG, c.exclG + 1, c.aborted⟩ := by
          unfold acquireExclStep AtomicBorrowRefMut.try_new
          rw [hz]
          simp
        rw [hstep]
        refine Or.inr ⟨show c.exclG + 1 = 1 by omega,
          show c.sharedG = 0 by omega, Nat.le_refl _, ?_, fun _ => ?_⟩
        · show HIGH_BIT ≤ MAX_FAILED_BORROWS
          rw [HIGH_BIT_val, MAX_FAILED_BORROWS_val]
          omega
        · show HIGH_BIT < MAX_FAILED_BORROWS
          rw [HIGH_BIT_val, MAX_FAILED_BORROWS_val]
          omega
      · have hstep : acquireExclStep c
            = ⟨c.word, c.sharedG, c.exclG, c.aborted⟩ := by
          unfold acquireExclStep AtomicBorrowRefMut.try_new
          rw [if_neg hz, if_pos (land_high_bit_zero c.word h3)]
        rw [hstep]
        exact Or.inl ⟨h1, h2, h3, hab⟩
    · have hnz : c.word ≠ 0 := by rw [HIGH_BIT_val] at h3; omega
      have hbit : c.word &&& HIGH_BIT ≠ 0 := by
        refine land_high_bit_pos c.word h3 ?_
        rw [WORD_val]
        rw [MAX_FAILED_BORROWS_val] at h4
        omega
      have hstep : acquireExclStep c
          = ⟨c.word, c.sharedG, c.exclG, c.aborted⟩ := by
        unfold acquireExclStep AtomicBorrowRefMut.try_new
        rw [if_neg hnz, if_neg hbit]
      rw [hstep]
      exact Or.inr ⟨h1, h2, h3, h4, h5⟩
  | relShared hab hg =>
    rcases hinv with ⟨h1, h2, h3, _⟩ | ⟨h1, h2, h3, h4, h5⟩
    · have hdrop : AtomicBorrowRef.drop c.word = c.word - 1 := by
        unfold AtomicBorrowRef.drop
        rw [WORD_val]
        rw [HIGH_BIT_val] at h3
        omega
      have hstep : releaseSharedStep c
          = ⟨c.word - 1, c.sharedG - 1, c.exclG, c.aborted⟩ := by
        unfold releaseSharedStep
        rw [hdrop]
      rw [hstep]
      refine Or.inl ⟨h1, show c.word - 1 = c.sharedG - 1 by omega, ?_, hab⟩
      show c.word - 1 < HIGH_BIT
      rw [HIGH_BIT_val] at h3 ⊢
      omega
    · exact absurd hg (by omega)
  | relExcl hab hg =>
    rcases hinv with ⟨h1, h2, h3, _⟩ | ⟨h1, h2, h3, h4, h5⟩
    · exact absurd hg (by omega)
    · have hstep : releaseExclStep c
          = ⟨0, c.sharedG, c.exclG - 1, c.aborted⟩ := rfl
      rw [hstep]
      refine Or.inl ⟨show c.exclG - 1 = 0 by omega,
        show (0 : Nat) = c.sharedG by omega, ?_, hab⟩
      show (0 : Nat) < HIGH_BIT
      rw [HIGH_BIT_val]
      omega

theorem inv_reachable {c : Config} (h : Reachable c) : CellInv c := by
  induction h with
  | init => exact inv_init
  | step _ hstep ih => exact inv_preserved ih hstep

/-- If a shared acquire returned `Ok`, the incremented word had a clear top
bit. -/
theorem try_new_ok_land (s : Nat) (hok : (AtomicBorrowRef.try_new s).1 = .ok) :
    (s + 1) % WORD &&& HIGH_BIT = 0 := by
  by_cases hb : (s + 1) % WORD &&& HIGH_BIT = 0
  · exact hb
  · exfalso
    rcases hco : AtomicBorrowRef.check_overflow ((s + 1) % WORD) with ⟨c, s'⟩
    cases c <;> simp [AtomicBorrowRef.try_new, hb, hco] at hok

/-- Claim C1: over every interleaving of acquire and release operations on
one cell, at no instant are a live exclusive guard and a live shared guard
both outstanding, and at no instant are two live exclusive guards
outstanding; moreover, from any reachable snapshot a shared acquire succeeds
only when the word's top bit is clear, and an exclusive acquire succeeds only
when the word is exactly `0`. -/
theorem guards_mutually_exclusive (c : Config) (h : Reachable c) :
    (c.exclG ≤ 1 ∧ (c.exclG = 0 ∨ c.sharedG = 0))
    ∧ ((AtomicBorrowRef.try_new c.word).1 = .ok → c.word &&& HIGH_BIT = 0)
    ∧ ((AtomicBorrowRefMut.try_new c.word).1 = .ok → c.word = 0) := by
  rcases inv_reachable h with ⟨h1, h2, h3, _⟩ | ⟨h1, h2, h3, h4, _⟩
  · refine ⟨⟨by omega, Or.inl h1⟩, fun _ => land_high_bit_zero c.word h3,
      fun hok => ?_⟩
    by_contra hnz
    unfold AtomicBorrowRefMut.try_new at hok
    rw [if_neg hnz, if_pos (land_high_bit_zero c.word h3)] at hok
    exact MutRes.noConfusion hok
  · have hword : c.word < WORD - 1 := by
      rw [WORD_val]
      rw [MAX_FAILED_BORROWS_val] at h4
      omega
    refine ⟨⟨by omega, Or.inr h2⟩, fun hok => ?_, fun hok => ?_⟩
    · exfalso
      have hl := try_new_ok_land c.word hok
      rw [Nat.mod_eq_of_lt (by omega)] at hl
      exact land_high_bit_pos (c.word + 1) (Nat.le_trans h3 (Nat.le_succ _))
        (by omega) hl
    · exfalso
      have hnz : c.word ≠ 0 := by rw [HIGH_BIT_val] at h3; omega
      unfold AtomicBorrowRefMut.try_new at hok
      rw [if_neg hnz] at hok
      by_cases hb : c.word &&& HIGH_BIT = 0 <;> simp [hb] at hok

/-- Closed instance of `guards_mutually_exclusive` at the reachable initial
configuration. -/
theorem guards_mutually_exclusive_witness :
    (initConfig.exclG ≤ 1 ∧ (initConfig.exclG = 0 ∨ initConfig.sharedG = 0))
    ∧ ((AtomicBorrowRef.try_new initConfig.word).1 = .ok →
        initConfig.word &&& HIGH_BIT = 0)
    ∧ ((AtomicBorrowRefMut.try_new initConfig.word).1 = .ok →
        initConfig.word = 0) :=
  guards_mutually_exclusive initConfig Reachable.init
